import Mathlib

/-!
Verification of the `microspider` asynchronous web crawler
(`spider/spider.py`, `web/url.py`, `web/response.py`, `log/logger.py`)
against its natural-language specification.

The Python code is shallowly embedded: strings and byte strings are both
modelled as `List Char` (every byte value 0..255 is a valid `Char`, and all
protocol-relevant data is ASCII), Python exceptions become `Except`/`Option`
results, and the mutable engine state becomes explicit state passing.
Each definition carries a comment pointing at the source construct it embeds.
-/

namespace Microspider

/-! ## Python primitives

Helpers modelling the Python string/bytes operations the crawler uses:
`str.strip`, `int(s, base)`, `str.split`, `str.partition`, `str.rpartition`.
-/

/-- The characters matched by Python `str.strip()` and by the regex class
`\s` on ASCII input: space, tab, newline, carriage return, vertical tab,
form feed. -/
def pyWs (c : Char) : Bool :=
  c = ' ' || c = '\t' || c = '\n' || c = '\r' || c = '\x0b' || c = '\x0c'

/-- Python `str.strip()` (no argument): remove leading and trailing
whitespace. -/
def pyStrip (l : List Char) : List Char :=
  ((l.dropWhile pyWs).reverse.dropWhile pyWs).reverse

/-- The numeric value of a digit character for `int(s, base)`:
`0`-`9`, then letters case-insensitively, rejected when the value is not
below the base. -/
def digitVal (base : Nat) (c : Char) : Option Nat :=
  let v : Nat :=
    if '0' ≤ c ∧ c ≤ '9' then c.toNat - 48
    else if 'a' ≤ c ∧ c ≤ 'z' then c.toNat - 87
    else if 'A' ≤ c ∧ c ≤ 'Z' then c.toNat - 55
    else 99
  if v < base then some v else none

/-- Digit run of CPython `int(s, base)` after the first digit: digits with
single underscores allowed between digits (PEP 515). -/
def pyDigitsAux (base : Nat) : List Char → Nat → Option Nat
  | [], acc => some acc
  | c :: rest, acc =>
    if c = '_' then
      match rest with
      | c2 :: rest2 =>
        match digitVal base c2 with
        | some v => pyDigitsAux base rest2 (acc * base + v)
        | none => none
      | [] => none
    else
      match digitVal base c with
      | some v => pyDigitsAux base rest (acc * base + v)
      | none => none

/-- Digit run of CPython `int(s, base)`: at least one digit, and it must not
start with an underscore. -/
def pyDigits (base : Nat) : List Char → Option Nat
  | [] => none
  | c :: rest =>
    match digitVal base c with
    | some v => pyDigitsAux base rest v
    | none => none

/-- CPython `int(s, base)` for `base` 10 or 16: surrounding whitespace is
stripped, an optional sign is consumed, for base 16 an optional `0x`/`0X`
prefix (optionally followed by one underscore) is consumed, then the digit
run is parsed; `none` models the `ValueError` raised on malformed input. -/
def pyIntCore (base : Nat) (l : List Char) : Option Int :=
  let l1 := pyStrip l
  let signed : Bool × List Char :=
    match l1 with
    | '+' :: r => (false, r)
    | '-' :: r => (true, r)
    | _ => (false, l1)
  let l2 :=
    if base = 16 then
      match signed.2 with
      | '0' :: x :: r =>
        if x = 'x' ∨ x = 'X' then
          match r with
          | '_' :: r2 => r2
          | _ => r
        else '0' :: x :: r
      | other => other
    else signed.2
  match pyDigits base l2 with
  | some n => some (if signed.1 then -(n : Int) else (n : Int))
  | none => none

/-- Index of the first occurrence of a character (`str.find`), if any. -/
def idxOf? (c : Char) : List Char → Option Nat
  | [] => none
  | x :: rest => if x = c then some 0 else (idxOf? c rest).map (· + 1)

/-- Python `s.split(sep, 1)` for a one-character separator: the parts before
and after the first occurrence, or `none` when the separator is absent. -/
def splitFirstAt (c : Char) : List Char → Option (List Char × List Char)
  | [] => none
  | x :: rest =>
    if x = c then some ([], rest)
    else (splitFirstAt c rest).map (fun p => (x :: p.1, p.2))

/-- Python `s.partition(sep)` for a one-character separator:
`(before, found, after)`. -/
def pyPartition (c : Char) (l : List Char) : List Char × Bool × List Char :=
  match splitFirstAt c l with
  | some (a, b) => (a, true, b)
  | none => (l, false, [])

/-- The third component of Python `s.rpartition(sep)`: the part after the
last occurrence of `sep`, or the whole string when `sep` is absent. -/
def afterLast (c : Char) (l : List Char) : List Char :=
  match splitFirstAt c l.reverse with
  | some (revAfter, _) => revAfter.reverse
  | none => l

/-- Python `s.split('\r\n')`: split on every occurrence of CRLF, keeping
empty parts. -/
def splitOnCRLF : List Char → List (List Char)
  | [] => [[]]
  | '\r' :: '\n' :: rest => [] :: splitOnCRLF rest
  | c :: rest =>
    match splitOnCRLF rest with
    | h :: t => (c :: h) :: t
    | [] => [[c]]

/-- Worker for `pySplitWhitespace`. -/
def pySplitWsAux : List Char → List Char → List (List Char)
  | [], cur => if cur = [] then [] else [cur.reverse]
  | c :: rest, cur =>
    if pyWs c then
      if cur = [] then pySplitWsAux rest []
      else cur.reverse :: pySplitWsAux rest []
    else pySplitWsAux rest (c :: cur)

/-- Python `s.split()` with no argument: split on whitespace runs,
discarding empty parts. -/
def pySplitWhitespace (l : List Char) : List (List Char) :=
  pySplitWsAux l []

/-- Python `sub in s` substring containment. -/
def containsSeq (pat : List Char) : List Char → Bool
  | [] => pat.isEmpty
  | c :: rest => pat.isPrefixOf (c :: rest) || containsSeq pat rest

/-- Python `' '.join(parts)`. -/
def joinSpace : List (List Char) → List Char
  | [] => []
  | [x] => x
  | x :: rest => x ++ [' '] ++ joinSpace rest

/-! ## `urllib.parse.urlsplit` and `web/url.py`

`web/url.py`'s `URL` class delegates entirely to the standard library's
`urllib.parse.urlsplit` and to the `SplitResult` accessors `scheme`,
`hostname`, `port`, `path`, `query`.  Those library functions are embedded
here from CPython's `urllib/parse.py` (the Python 3.8 behaviour current
when the crawler was written): scheme detection, netloc splitting, the
`Invalid IPv6 URL` check, fragment and query splitting, and the
`_hostinfo`/`hostname`/`port` accessors.  `_checknetloc` only ever raises
for non-ASCII netlocs whose NFKC normalisation changes; that Unicode
normalisation is outside this model, so the embedding accepts every
netloc and all URL theorems below restrict their inputs to ASCII. -/

/-- A character allowed in a URL scheme (`urllib.parse.scheme_chars`):
letters, digits, `+`, `-`, `.`. -/
def schemeChar (c : Char) : Bool :=
  c.isAlpha || c.isDigit || c = '+' || c = '-' || c = '.'

/-- The result of `urlsplit`, mirroring `urllib.parse.SplitResult`. -/
structure SplitResult where
  scheme : List Char
  netloc : List Char
  path : List Char
  query : List Char
  fragment : List Char
deriving DecidableEq, Repr

/-- `urllib.parse._splitnetloc` with `start = 2` already applied: split the
remainder at the first of `/`, `?`, `#`. -/
def splitnetloc (l : List Char) : List Char × List Char :=
  (l.takeWhile (fun c => !(c = '/' || c = '?' || c = '#')),
   l.dropWhile (fun c => !(c = '/' || c = '?' || c = '#')))

/-- `urllib.parse.urlsplit(url)` (defaults `scheme=''`,
`allow_fragments=True`).  The only exception the embedded code path can
raise on ASCII input is `ValueError("Invalid IPv6 URL")` for a netloc with
mismatched square brackets; it is modelled as the `Except.error` case. -/
def pyUrlsplit (url : List Char) : Except (List Char) SplitResult :=
  let schemeRest : List Char × List Char :=
    match idxOf? ':' url with
    | some i =>
      if 0 < i ∧ (url.take i).all schemeChar then
        ((url.take i).map Char.toLower, url.drop (i + 1))
      else ([], url)
    | none => ([], url)
  let scheme := schemeRest.1
  let rest := schemeRest.2
  let netlocSplit : Except (List Char) (List Char × List Char) :=
    if ['/', '/'].isPrefixOf rest then
      let nl := splitnetloc (rest.drop 2)
      if (nl.1.contains '[' && !nl.1.contains ']') ||
         (nl.1.contains ']' && !nl.1.contains '[') then
        Except.error "Invalid IPv6 URL".toList
      else Except.ok nl
    else Except.ok ([], rest)
  match netlocSplit with
  | Except.error e => Except.error e
  | Except.ok (netloc, rest2) =>
    let pathFrag : List Char × List Char :=
      match splitFirstAt '#' rest2 with
      | some (a, b) => (a, b)
      | none => (rest2, [])
    let pathQuery : List Char × List Char :=
      match splitFirstAt '?' pathFrag.1 with
      | some (a, b) => (a, b)
      | none => (pathFrag.1, [])
    Except.ok { scheme := scheme, netloc := netloc, path := pathQuery.1,
                query := pathQuery.2, fragment := pathFrag.2 }

/-- `SplitResult._hostinfo`: strip userinfo at the last `@`, then split a
bracketed IPv6 host or split at the first `:`; an empty port string becomes
`none`. -/
def SplitResult.hostinfoOf (r : SplitResult) : List Char × Option (List Char) :=
  let hi := afterLast '@' r.netloc
  let br := pyPartition '[' hi
  if br.2.1 then
    let h := pyPartition ']' br.2.2
    let p := pyPartition ':' h.2.2
    (h.1, if p.2.2 = [] then none else some p.2.2)
  else
    let h := pyPartition ':' hi
    (h.1, if h.2.2 = [] then none else some h.2.2)

/-- `SplitResult.hostname`: the host part lowercased, `None` when empty. -/
def SplitResult.hostnameOf (r : SplitResult) : Option (List Char) :=
  let h := r.hostinfoOf.1
  if h = [] then none else some (h.map Char.toLower)

/-- `SplitResult.port`: `None` without an explicit port; otherwise
`int(port, 10)` (`ValueError` on failure) followed by the 0..65535 range
check (`ValueError` when outside). -/
def SplitResult.portOf (r : SplitResult) : Except (List Char) (Option Int) :=
  match r.hostinfoOf.2 with
  | none => Except.ok none
  | some p =>
    match pyIntCore 10 p with
    | none => Except.error "Port could not be cast to integer value".toList
    | some n =>
      if 0 ≤ n ∧ n ≤ 65535 then Except.ok (some n)
      else Except.error "Port out of range 0-65535".toList

/-- The crawler's `URL` value (`web/url.py`): a wrapper around the
`urlsplit` result. -/
structure URL where
  split : SplitResult
deriving DecidableEq, Repr

/-- `URL.__init__`: `self._url = urlsplit(url)`; the `urlsplit` exception
propagates out of the constructor. -/
def URL.parse (raw : List Char) : Except (List Char) URL :=
  (pyUrlsplit raw).map URL.mk

/-- `URL.scheme`: `self._url.scheme or 'http'`. -/
def URL.scheme (u : URL) : List Char :=
  if u.split.scheme = [] then "http".toList else u.split.scheme

/-- `URL.host`: `self._url.hostname` (may be `None`). -/
def URL.host (u : URL) : Option (List Char) :=
  u.split.hostnameOf

/-- `URL.path`: `self._url.path or '/'`. -/
def URL.path (u : URL) : List Char :=
  if u.split.path = [] then "/".toList else u.split.path

/-- `URL.query`: `self._url.query`. -/
def URL.query (u : URL) : List Char :=
  u.split.query

/-- `URL.port`: `port if port else 443 if self.scheme == 'https' else 80`.
Note that a parsed port of `0` is falsy in Python, so it is replaced by the
scheme default, and that the underlying `SplitResult.port` exception
propagates. -/
def URL.port (u : URL) : Except (List Char) Int :=
  match u.split.portOf with
  | Except.error e => Except.error e
  | Except.ok op =>
    let dflt : Int := if u.scheme = "https".toList then 443 else 80
    match op with
    | some p => Except.ok (if p ≠ 0 then p else dflt)
    | none => Except.ok dflt

/-! ## The request header (`Spider._get_request_header`) -/

/-- The request-target assembled by `Spider._get_request_header`:
`query = u.query`, then `if query: query += '?'`, then the request line
interpolates `u.path + "" if not query else query`.  (The conditional
expression binds as `(u.path + "") if (not query) else query`.) -/
def requestTarget (u : URL) : List Char :=
  let query := u.query
  let query := if query ≠ [] then query ++ "?".toList else query
  if query = [] then u.path ++ [] else query

/-- The first line of the request produced by `Spider._get_request_header`:
`f'{method} {...} HTTP/1.1\r\n'`. -/
def requestLine (method : List Char) (u : URL) : List Char :=
  method ++ " ".toList ++ requestTarget u ++ " HTTP/1.1\r\n".toList

/-- The full header block of `Spider._get_request_header` (the user agent
string comes from the external `UserAgent.get_agent()` collaborator and is
a parameter; a `None` host renders as the string `None` in the f-string). -/
def getRequestHeader (agent : List Char) (u : URL) (method : List Char := "GET".toList) :
    List Char :=
  requestLine method u ++
  "Host: ".toList ++ (match u.host with | some h => h | none => "None".toList) ++
  "\r\n".toList ++
  "Connection: keep-alive\r\n".toList ++
  "Pragma: no-cache\r\n".toList ++
  "Cache-Control: no-cache\r\n".toList ++
  "Upgrade-Insecure-Requests: 1\r\n".toList ++
  "User-Agent: ".toList ++ agent ++ "\r\n".toList ++
  "Accept: text/html,application/xhtml+xml,application/xml;q=0.9,image/webp,image/apng,*/*;q=0.8,application/signed-exchange;v=b3;q=0.9\r\n".toList ++
  "Accept-Language: zh-CN,zh;q=0.9\r\n".toList ++
  "Accept-Encoding: gzip, deflate\r\n".toList ++
  "\r\n".toList

/-! ## Stream reading (`asyncio.StreamReader`) and the chunked body

`Spider._get_chunk_data` and `Spider._get_body` drive an
`asyncio.StreamReader`.  The stream is modelled as the list of bytes still
unread; `readline` returns everything up to and including the first LF (or
the whole remainder at EOF), `readexactly n` raises `ValueError` for a
negative count and `IncompleteReadError` when fewer than `n` bytes remain,
both modelled as `none`. -/

/-- `StreamReader.readline`: up to and including the first `\n`, or the
whole rest of the stream at EOF.  Returns `(line, remainder)`. -/
def readline (s : List Char) : List Char × List Char :=
  match splitFirstAt '\n' s with
  | some (a, b) => (a ++ ['\n'], b)
  | none => (s, [])

/-- `StreamReader.readexactly n`: `none` models `ValueError` (negative
count) or `IncompleteReadError` (EOF before `n` bytes); otherwise
`(data, remainder)`. -/
def readexactly (s : List Char) (n : Int) : Option (List Char × List Char) :=
  if n < 0 then none
  else if s.length < n.toNat then none
  else some (s.take n.toNat, s.drop n.toNat)

/-- Python `x[:-2]`: drop the last two elements. -/
def dropLast2 (l : List Char) : List Char :=
  l.take (l.length - 2)

/-- The loop body of `Spider._get_chunk_data`, with explicit fuel (each
iteration consumes at least one byte of the stream, so
`stream.length + 1` fuel always suffices): read a line; if it is `0\r\n`
stop and return the accumulated content; otherwise parse
`int(chunk_line[:-2], 16)`, `readexactly(chunk_len + 2)`, append
`chunk[:-2]`, and continue.  Any exception makes the whole function return
an empty byte string (the `except` branch sets `content = b''`). -/
def getChunkAux : Nat → List Char → List Char → List Char
  | 0, _, _ => []
  | fuel + 1, s, acc =>
    let r := readline s
    if r.1 = ['0', '\r', '\n'] then acc
    else
      match pyIntCore 16 (dropLast2 r.1) with
      | none => []
      | some n =>
        match readexactly r.2 (n + 2) with
        | none => []
        | some (chunk, s2) => getChunkAux fuel s2 (acc ++ dropLast2 chunk)

/-- `Spider._get_chunk_data(reader, url)` applied to the remaining stream. -/
def getChunkData (s : List Char) : List Char :=
  getChunkAux (s.length + 1) s []

/-- `Spider._get_body(reader, length, url)`: `readexactly(length)`, with
every exception caught and turned into `b''`. -/
def getBodyLen (s : List Char) (n : Int) : List Char :=
  match readexactly s n with
  | some p => p.1
  | none => []

/-! ## `web/response.py`: the `Response` class -/

/-- The state of a `Response` object: source URL, header dictionary (in
insertion order, last write wins), body bytes, optional status code, and
reason phrase. -/
structure Response where
  url : List Char
  header : List (List Char × List Char)
  body : List Char
  code : Option Int
  info : List Char
deriving DecidableEq, Repr

/-- Python dict assignment `d[k] = v`: replace in place or append. -/
def dictSet (d : List (List Char × List Char)) (k v : List Char) :
    List (List Char × List Char) :=
  match d with
  | [] => [(k, v)]
  | kv :: rest => if kv.1 = k then (k, v) :: rest else kv :: dictSet rest k v

/-- Python dict lookup `d.get(k)`. -/
def dictGet (d : List (List Char × List Char)) (k : List Char) : Option (List Char) :=
  match d with
  | [] => none
  | kv :: rest => if kv.1 = k then some kv.2 else dictGet rest k

/-- One header line as stored by `Response._init_header`:
`items = line.split(':')`, key `items[0]`, value
`':'.join(items[1:]).strip()` — i.e. split at the first colon and strip the
value (a line without a colon maps the whole line to the empty string). -/
def headerLineKV (line : List Char) : List Char × List Char :=
  match splitFirstAt ':' line with
  | some (k, v) => (k, pyStrip v)
  | none => (line, [])

/-- `Response.__init__` / `Response._init_header`: the header block must
start with `HTTP` and end with `\r\n\r\n`, else the exception is caught and
the response keeps `code = None`, `info = ''` and an empty header dict.
The first line is whitespace-split into `[version, code, reason...]`;
`int(code)` failing (or the token being missing) is likewise caught,
leaving the fields unset.  Every remaining CRLF-separated line (including
the empty ones produced by the terminating `\r\n\r\n`) is stored through
`headerLineKV`, later writes winning. -/
def initHeader (url : List Char) (raw : List Char) (body : List Char := []) : Response :=
  let base : Response := { url := url, header := [], body := body, code := none, info := [] }
  if !("HTTP".toList.isPrefixOf raw && "\r\n\r\n".toList.isSuffixOf raw) then base
  else
    match splitOnCRLF raw with
    | [] => base
    | line0 :: restLines =>
      match pySplitWhitespace line0 with
      | _ :: codeTok :: infoToks =>
        match pyIntCore 10 codeTok with
        | none => base
        | some c =>
          let hdr := restLines.foldl
            (fun d line => dictSet d (headerLineKV line).1 (headerLineKV line).2) []
          { base with code := some c, info := joinSpace infoToks, header := hdr }
      | _ => base

/-- `Response.get(key)` (default `None`). -/
def Response.get (r : Response) (k : List Char) : Option (List Char) :=
  dictGet r.header k

/-- `Response.get(key, default)` with a string default. -/
def Response.getD (r : Response) (k dflt : List Char) : List Char :=
  (r.get k).getD dflt

/-- `Response.set_body`: only a `bytes` value (modelled `some`) replaces
the body; `None` (the decompressors' failure result) leaves it unchanged. -/
def Response.setBody (r : Response) (b : Option (List Char)) : Response :=
  match b with
  | some bs => { r with body := bs }
  | none => r

/-- The character class `[;\s]` closing the charset regex
`charset=(.*?)[;\s]` in `Response`. -/
def charsetDelim (c : Char) : Bool :=
  c = ';' || pyWs c

/-- The regex tail after a literal `charset=` match: the non-greedy capture
`(.*?)` followed by one `[;\s]` character succeeds exactly when a delimiter
occurs later in the string, capturing everything before the first one.
(`.` not matching `\n` needs no special case: `\n` is itself in the
delimiter class, so the minimal capture can never contain one.) -/
def charsetCapture (l : List Char) : Option (List Char) :=
  if l.any charsetDelim then some (l.takeWhile (fun c => !charsetDelim c)) else none

/-- Leftmost match of `re.findall(r'charset=(.*?)[;\s]', s)`: scan left to
right for a position where `charset=` matches and a delimiter follows the
capture; the code uses `r[0]`, the first match. -/
def findCharset : List Char → Option (List Char)
  | [] => none
  | c :: rest =>
    if "charset=".toList.isPrefixOf (c :: rest) then
      match charsetCapture ((c :: rest).drop 8) with
      | some cap => some cap
      | none => findCharset rest
    else findCharset rest

/-- `Response.encoding`: `None` when the `Content-Type` header is absent or
empty or the charset regex finds no match; otherwise the first capture. -/
def Response.encoding (r : Response) : Option (List Char) :=
  match r.get "Content-Type".toList with
  | none => none
  | some ct =>
    if ct = [] then none
    else
      match findCharset ct with
      | some cap => some cap
      | none => none

/-- The encoding `Response.text` decodes with:
`self.encoding if self.encoding else 'UTF-8'` (both `None` and the empty
string are falsy). -/
def Response.textEncoding (r : Response) : List Char :=
  match r.encoding with
  | some e => if e = [] then "UTF-8".toList else e
  | none => "UTF-8".toList

/-! ## The fetcher's body and decode phases (`Spider._download_document`) -/

/-- The body-framing step of `Spider._download_document` (after the
response header is parsed): if `Transfer-Encoding` equals `chunked`, read
the chunk-framed body; otherwise evaluate
`int(response.get('Content-Length', '0'))` — this `int` call is *not*
inside any `try`, so a present but non-numeric value raises a `ValueError`
that escapes the fetch task (`Except.error`) — and read that many bytes
through `_get_body` (which catches its own read errors). -/
def bodyFraming (r : Response) (s : List Char) : Except (List Char) (List Char) :=
  if r.getD "Transfer-Encoding".toList [] = "chunked".toList then
    Except.ok (getChunkData s)
  else
    match pyIntCore 10 (r.getD "Content-Length".toList "0".toList) with
    | none => Except.error "ValueError: invalid literal for int() with base 10".toList
    | some n => Except.ok (getBodyLen s n)

/-- What the tail of one fetch delivers: the response object handed to
`handle_document`, whether the handler was invoked at all, and whether a
decompression error was logged. -/
structure FetchDelivery where
  delivered : Response
  handlerInvoked : Bool
  decodeErrorLogged : Bool
deriving DecidableEq

/-- The tail of `Spider._download_document` (reached only with a non-empty
raw body): dispatch on `Content-Encoding` to `_gzip_decompress` /
`_deflate_decompress` — each returns the decompressed bytes or logs and
returns `None` — then `response.set_body(body)` (a `None` body leaves the
response's body, initialised to `b''`, unchanged), log the status line,
bump the completion counter, and invoke `handle_document` inside a
`try`/`except`.  The two decompressors are abstract parameters: the claims
hold for every gzip/deflate implementation. -/
def downloadTail (gzipDec deflateDec : List Char → Option (List Char))
    (r : Response) (body : List Char) : FetchDelivery :=
  let ce := r.getD "Content-Encoding".toList []
  let dec : Option (List Char) × Bool :=
    if ce = "gzip".toList then
      match gzipDec body with
      | some d => (some d, false)
      | none => (none, true)
    else if ce = "deflate".toList then
      match deflateDec body with
      | some d => (some d, false)
      | none => (none, true)
    else (some body, false)
  { delivered := r.setBody dec.1, handlerInvoked := true, decodeErrorLogged := dec.2 }

/-! ## Admission (`Spider.add_task` and `Spider._check_domain`)

The MD5 fingerprint function `URL.md5_value` is kept abstract (a parameter
`md5`): the claims quantify over fingerprints, not over MD5 internals.
State mutations that happen before an exception persist, so the admission
functions return the mutated state together with an error flag. -/

/-- The engine state touched by admission: the `_handled_urls` fingerprint
set, the per-host `_url_queue` FIFOs (keyed by `URL.host`, which may be
`None`), the hosts for which a `_task_monitor` was spawned, and a ghost
log of every fingerprint ever enqueued, in order. -/
structure Admission where
  handled : List (List Char)
  queues : List (Option (List Char) × List (List Char))
  monitors : List (Option (List Char))
  enqueued : List (List Char)
deriving DecidableEq

/-- The loop of `Spider._check_domain`: for each allowed domain, build
`URL(url)` (its exception propagates), take `host or ''`, and test
substring containment. -/
def checkDomainGo (url : List Char) : List (List Char) → Except (List Char) Bool
  | [] => Except.ok false
  | d :: rest => do
      let u ← URL.parse url
      let h := (u.host).getD []
      if containsSeq d h then pure true else checkDomainGo url rest

/-- `Spider._check_domain`: an empty `ALLOWED_DOMAIN` admits everything. -/
def checkDomain (allowed : List (List Char)) (url : List Char) :
    Except (List Char) Bool :=
  if allowed = [] then Except.ok true else checkDomainGo url allowed

/-- Python dict key-existence for the queue map (`self._url_queue.get(u.host)`
is an `asyncio.Queue`, truthy whenever the key exists). -/
def queueFor (qs : List (Option (List Char) × List (List Char)))
    (h : Option (List Char)) : Option (List (List Char)) :=
  match qs with
  | [] => none
  | q :: rest => if q.1 = h then some q.2 else queueFor rest h

/-- Enqueue a URL at the tail of its host's FIFO (creating the entry). -/
def queuePut (qs : List (Option (List Char) × List (List Char)))
    (h : Option (List Char)) (url : List Char) :
    List (Option (List Char) × List (List Char)) :=
  match qs with
  | [] => [(h, [url])]
  | q :: rest => if q.1 = h then (q.1, q.2 ++ [url]) :: rest else q :: queuePut rest h url

/-- One iteration of the `for url in urls` loop of `Spider.add_task`:
domain check, fingerprint dedup against `_handled_urls`, insertion of the
fingerprint *before* the URL object is even constructed, then enqueue —
creating queue, per-host semaphore and monitor for a new host.  The `Bool`
is true when an exception escaped (the state mutated so far persists). -/
def addTaskOne (md5 : List Char → List Char) (allowed : List (List Char))
    (s : Admission) (url : List Char) : Admission × Bool :=
  match checkDomain allowed url with
  | Except.error _ => (s, true)
  | Except.ok false => (s, false)
  | Except.ok true =>
    let hv := md5 url
    if hv ∈ s.handled then (s, false)
    else
      let s1 := { s with handled := hv :: s.handled }
      match URL.parse url with
      | Except.error _ => (s1, true)
      | Except.ok u =>
        if (queueFor s1.queues u.host).isSome then
          ({ s1 with queues := queuePut s1.queues u.host url,
                     enqueued := s1.enqueued ++ [hv] }, false)
        else
          ({ s1 with queues := queuePut s1.queues u.host url,
                     monitors := u.host :: s1.monitors,
                     enqueued := s1.enqueued ++ [hv] }, false)

/-- `Spider.add_task(*urls)`: process the URLs in order; an exception
aborts the remaining iterations but keeps the mutations made so far. -/
def addTask (md5 : List Char → List Char) (allowed : List (List Char)) :
    Admission → List (List Char) → Admission × Bool
  | s, [] => (s, false)
  | s, url :: rest =>
    match addTaskOne md5 allowed s url with
    | (s1, true) => (s1, true)
    | (s1, false) => addTask md5 allowed s1 rest

/-- The empty engine state created by `Spider.__init__`. -/
def Admission.init : Admission :=
  { handled := [], queues := [], monitors := [], enqueued := [] }

/-! ## Gate release order (`Spider._task_done`) -/

/-- A semaphore release event: the per-host worker gate or the global
work-position gate. -/
inductive GateRelease
  | perHost (host : Option (List Char))
  | globalGate
deriving DecidableEq, Repr

/-- `Spider._task_done(url)`: construct `URL(url)` (exception propagates),
then `self._worker[u.host].release()` followed by
`self._work_position.release()` — the events in program order. -/
def taskDoneReleases (url : List Char) : Except (List Char) (List GateRelease) := do
  let u ← URL.parse url
  pure [GateRelease.perHost u.host, GateRelease.globalGate]

/-! ## Return values of `Spider._run` and `Spider.start` -/

/-- The value returned by the `Spider._run` coroutine: its whole body is
one `try` that ends in `return True`, with `except Exception` logging and
returning `False`; `raised` is the exception (if any) escaping the body. -/
def runReturnValue (raised : Option (List Char)) : Bool :=
  match raised with
  | none => true
  | some _ => false

/-- The value returned by `Spider.start`: it evaluates
`asyncio.run(self._run(*urls))` for its effects and, having no `return`
statement, returns Python `None` — whatever `_run` returned. -/
def startReturnValue (_runValue : Bool) : Option Bool :=
  none

/-! ## The event loop and the termination detector

`Spider.start` runs `Spider._run` on one asyncio event loop.  To settle the
termination claim the relevant asyncio machinery is embedded as a
deterministic transition system, faithful to CPython's `asyncio`:

* the loop keeps a FIFO ready queue of callbacks (`loop.call_soon`
  appends; `asyncio.create_task` schedules the task's first step this
  way); each scheduled task then runs until its next suspension point;
* resolving a future (`Future.set_result`) appends the awaiting task's
  wake-up to the ready queue;
* `asyncio.Queue.put` on an unbounded queue does not suspend: it appends
  the item, increments the unfinished-task count, clears the `_finished`
  event and wakes the first pending getter; `Queue.get` suspends only on
  an empty queue, re-checking emptiness when woken; `Queue.task_done`
  decrements the count and sets the `_finished` event at zero, resolving
  its waiters' futures at that instant; `Queue.join` waits on that event
  (and `Event.wait` returns once its future is resolved, without
  re-checking the flag);
* `asyncio.Semaphore.acquire` suspends only when the value is zero,
  re-checking when woken; `release` increments and wakes one waiter;
* awaiting a task suspends unless the task is already marked done — the
  done flag is set synchronously when the coroutine returns, and the done
  callbacks (which wake awaiters) go through `call_soon`;
* when the ready queue is empty the loop polls I/O; the completion order
  of outstanding socket operations is the only nondeterminism, and a
  concrete schedule (`c1Net`) is fixed below.

The scenario instantiates the spider with seeds on one single host, the
fingerprint function injective on the URLs involved (so it is taken to be
the identity), an always-allowing domain list, and a user
`handle_document` that enqueues one further same-host URL — all within the
engine's interface.  `_record` (the status reporter) suspends on
`asyncio.sleep(60)`, which does not fire within the scenario. -/

/-- Task identifiers: the `_run` main task, the `_record` reporter, the
`_commit_task` supervisor, the single host's `_task_monitor`, and the
spawned `_download_document` fetch tasks in spawn order. -/
inductive Tid
  | runT
  | reporterT
  | commitT
  | monT
  | fetchT (i : Nat)
deriving DecidableEq, Repr

/-- Where the `_run` coroutine is suspended. -/
inductive RunPC
  | booting
  | awaitStart
  | awaitJoin
  | finished (v : Bool)
deriving DecidableEq, Repr

/-- Where the `_commit_task` coroutine is suspended. -/
inductive CommitPC
  | booting
  | qWait
  | awaitTask (t : Tid)
deriving DecidableEq, Repr

/-- Where the `_task_monitor` coroutine is suspended. -/
inductive MonPC
  | booting
  | qWait
  | acqHost (url : List Char)
  | acqGlobal (url : List Char)
deriving DecidableEq, Repr

/-- Where a `_download_document` coroutine is: scheduled but not yet run,
suspended on its socket I/O, or returned. -/
inductive FetchPC
  | booting
  | netWait
  | fin
deriving DecidableEq, Repr

/-- The monitor loop's control position inside one scheduling slice. -/
inductive MonStage
  | popNext
  | gotUrl (url : List Char)
  | gotHost (url : List Char)
deriving DecidableEq, Repr

/-- Scenario parameters: the seed URLs, what `handle_document` adds after
each fetched URL, and the two concurrency caps. -/
structure LoopCfg where
  seeds : List (List Char)
  handlerAdds : List Char → List (List Char)
  maxWorker : Int
  workerDomain : Int

/-- The complete state of the loop and the engine in the single-host
scenario: the ready FIFO, the pending network completion batches, the
host's URL queue with its (at most one) pending getter, the fingerprint
set, both semaphores with their waiter lists, the `_running_task` queue
with its pending getter, unfinished count, `_finished` event flag, whether
`_run` waits on that event, the `_start` latch, every task's position, and
the observables (completions, downloaded URLs). -/
structure LoopState where
  ready : List Tid
  net : List (List Nat)
  urlQueue : List (List Char)
  queueGetterWaiting : Bool
  monSpawned : Bool
  handled : List (List Char)
  semHost : Int
  semGlobal : Int
  semHostWaiters : List Tid
  semGlobalWaiters : List Tid
  runningQ : List Tid
  runningGetterWaiting : Bool
  unfinished : Int
  finishedEvent : Bool
  runWaitingJoin : Bool
  startDone : Bool
  runPC : RunPC
  commitPC : CommitPC
  monPC : MonPC
  fetches : List (List Char × FetchPC)
  completedCount : Nat
  downloads : List (List Char)
deriving DecidableEq, Repr

/-- `Spider.add_task` for one URL in the single-host scenario (fingerprint
is the URL itself, the allow-list empty): dedup against `handled`; on
first admission create the queue and `call_soon` the new monitor task; on
later admissions append to the queue and wake its pending getter
(`Queue.put` → `_wakeup_next(self._getters)` → `call_soon`). -/
def simAdd (s : LoopState) (url : List Char) : LoopState :=
  if url ∈ s.handled then s
  else
    let s := { s with handled := url :: s.handled }
    if s.monSpawned then
      let s := { s with urlQueue := s.urlQueue ++ [url] }
      if s.queueGetterWaiting then
        { s with queueGetterWaiting := false, ready := s.ready ++ [Tid.monT] }
      else s
    else
      { s with urlQueue := s.urlQueue ++ [url], monSpawned := true,
               ready := s.ready ++ [Tid.monT], monPC := MonPC.booting }

/-- `asyncio.Semaphore.release`: increment the value and resolve the first
pending waiter's future (scheduling its wake-up). -/
def semRelease (v : Int) (waiters : List Tid) (ready : List Tid) :
    Int × List Tid × List Tid :=
  match waiters with
  | [] => (v + 1, [], ready)
  | w :: rest => (v + 1, rest, ready ++ [w])

/-- `Spider._task_done`: release the per-host worker gate, then the global
work-position gate. -/
def releaseGates (s : LoopState) : LoopState :=
  let h := semRelease s.semHost s.semHostWaiters s.ready
  let s := { s with semHost := h.1, semHostWaiters := h.2.1, ready := h.2.2 }
  let g := semRelease s.semGlobal s.semGlobalWaiters s.ready
  { s with semGlobal := g.1, semGlobalWaiters := g.2.1, ready := g.2.2 }

/-- Is the fetch task `t` marked done (its coroutine has returned)? -/
def fetchDone (s : LoopState) : Tid → Bool
  | Tid.fetchT i =>
    match s.fetches.get? i with
    | some f => f.2 = FetchPC.fin
    | none => false
  | _ => false

/-- Update a fetch task's program position. -/
def setFetchPC (s : LoopState) (i : Nat) (pc : FetchPC) : LoopState :=
  match s.fetches.get? i with
  | some f => { s with fetches := s.fetches.set i (f.1, pc) }
  | none => s

/-- The monitor's spawn step: `asyncio.create_task(_download_document(url))`
(scheduling the new task), `await self._running_task.put(task)` (unbounded,
so no suspension: append, bump the unfinished count, clear the `_finished`
event, wake a pending getter), and the `_start` latch
(`set_result` resolving the future `_run` awaits, exactly once). -/
def spawnFetch (s : LoopState) (url : List Char) : LoopState :=
  let tid := Tid.fetchT s.fetches.length
  let s := { s with fetches := s.fetches ++ [(url, FetchPC.booting)],
                    ready := s.ready ++ [tid] }
  let s := { s with runningQ := s.runningQ ++ [tid],
                    unfinished := s.unfinished + 1,
                    finishedEvent := false }
  let s :=
    if s.runningGetterWaiting then
      { s with runningGetterWaiting := false, ready := s.ready ++ [Tid.commitT] }
    else s
  if s.startDone then s
  else
    let s := { s with startDone := true }
    if s.runPC = RunPC.awaitStart then { s with ready := s.ready ++ [Tid.runT] }
    else s

/-- One scheduling slice of `Spider._task_monitor`, run until the next
suspension point: `await url_queue.get()` (suspend registering a getter
when empty), `await worker.acquire()` and
`await self._work_position.acquire()` (suspend registering a waiter at
value zero, re-checking on wake), then spawn and loop.  Fuel bounds the
iterations; `3 * urlQueue.length + 4` always suffices since every loop
iteration consumes one queued URL. -/
def monRun (cfg : LoopCfg) : Nat → MonStage → LoopState → LoopState
  | 0, _, s => s
  | fuel + 1, MonStage.popNext, s =>
    match s.urlQueue with
    | [] => { s with queueGetterWaiting := true, monPC := MonPC.qWait }
    | url :: rest =>
      monRun cfg fuel (MonStage.gotUrl url) { s with urlQueue := rest }
  | fuel + 1, MonStage.gotUrl url, s =>
    if s.semHost ≤ 0 then
      { s with semHostWaiters := s.semHostWaiters ++ [Tid.monT],
               monPC := MonPC.acqHost url }
    else
      monRun cfg fuel (MonStage.gotHost url) { s with semHost := s.semHost - 1 }
  | fuel + 1, MonStage.gotHost url, s =>
    if s.semGlobal ≤ 0 then
      { s with semGlobalWaiters := s.semGlobalWaiters ++ [Tid.monT],
               monPC := MonPC.acqGlobal url }
    else
      monRun cfg fuel MonStage.popNext (spawnFetch { s with semGlobal := s.semGlobal - 1 } url)

/-- Resume the monitor at the stage recorded by its program position. -/
def monResume (cfg : LoopCfg) (s : LoopState) : LoopState :=
  let fuel := 3 * s.urlQueue.length + 4
  match s.monPC with
  | MonPC.booting => monRun cfg fuel MonStage.popNext s
  | MonPC.qWait => monRun cfg fuel MonStage.popNext s
  | MonPC.acqHost url => monRun cfg fuel (MonStage.gotUrl url) s
  | MonPC.acqGlobal url => monRun cfg fuel (MonStage.gotHost url) s

/-- `Queue.task_done` on `_running_task`: decrement the unfinished count;
at zero, set the `_finished` event, resolving the future `join` waits on
(scheduling `_run`'s wake-up). -/
def queueTaskDone (s : LoopState) : LoopState :=
  let u := s.unfinished - 1
  let s := { s with unfinished := u }
  if u = 0 then
    let s := { s with finishedEvent := true }
    if s.runWaitingJoin then
      { s with runWaitingJoin := false, ready := s.ready ++ [Tid.runT] }
    else s
  else s

/-- One scheduling slice of `Spider._commit_task`, run until the next
suspension point: `task = await self._running_task.get()` (suspend
registering a getter when empty), then `if not task.done(): await task`
(suspending only when the task is not yet done), then
`self._running_task.task_done()` and loop.  Fuel bounds the iterations by
the queue length. -/
def commitRun : Nat → LoopState → LoopState
  | 0, s => s
  | fuel + 1, s =>
    match s.runningQ with
    | [] => { s with runningGetterWaiting := true, commitPC := CommitPC.qWait }
    | t :: rest =>
      let s := { s with runningQ := rest }
      if fetchDone s t then commitRun fuel (queueTaskDone s)
      else { s with commitPC := CommitPC.awaitTask t }

/-- Resume the supervisor: waking from `await task` performs the
`task_done` and re-enters the loop. -/
def commitResume (s : LoopState) : LoopState :=
  match s.commitPC with
  | CommitPC.booting => commitRun (s.runningQ.length + 1) s
  | CommitPC.qWait => commitRun (s.runningQ.length + 1) s
  | CommitPC.awaitTask _ => commitRun (s.runningQ.length + 1) (queueTaskDone s)

/-- Resume a fetch task.  Its first slice suspends in
`_get_connector`/`open_connection` on socket I/O; the whole network
exchange (connect, send, read header, read body, close) is collapsed into
that single suspension, since none of it touches engine state.  The final
slice performs the state-visible tail of `_download_document`: count the
completion, record the download, run the user handler (which may
`add_task`), `_task_done` (release both gates), and return — setting the
task's done flag synchronously and scheduling the done callbacks that wake
a supervisor currently awaiting this task. -/
def fetchResume (cfg : LoopCfg) (s : LoopState) (i : Nat) : LoopState :=
  match s.fetches.get? i with
  | none => s
  | some f =>
    match f.2 with
    | FetchPC.booting => setFetchPC s i FetchPC.netWait
    | FetchPC.netWait =>
      let s := { s with completedCount := s.completedCount + 1,
                        downloads := s.downloads ++ [f.1] }
      let s := (cfg.handlerAdds f.1).foldl simAdd s
      let s := releaseGates s
      let s := setFetchPC s i FetchPC.fin
      if s.commitPC = CommitPC.awaitTask (Tid.fetchT i) then
        { s with ready := s.ready ++ [Tid.commitT] }
      else s
    | FetchPC.fin => s

/-- Resume the `_run` main task: its first slice performs `_init`
(spawning the reporter and supervisor tasks) and `add_task(*seeds)`
(no suspension: unbounded puts), then suspends on `await self._start`;
woken from it, `await self._running_task.join()` returns at once when the
unfinished count is zero, returns at once when the `_finished` event is
already set, and otherwise suspends on the event; woken from the event's
future, `join` returns (`Event.wait` does not re-check the flag) and
`_run` returns `True`. -/
def runResume (cfg : LoopCfg) (s : LoopState) : LoopState :=
  match s.runPC with
  | RunPC.booting =>
    let s := { s with ready := s.ready ++ [Tid.reporterT, Tid.commitT] }
    let s := cfg.seeds.foldl simAdd s
    { s with runPC := RunPC.awaitStart }
  | RunPC.awaitStart =>
    if s.unfinished > 0 then
      if s.finishedEvent then { s with runPC := RunPC.finished true }
      else { s with runPC := RunPC.awaitJoin, runWaitingJoin := true }
    else { s with runPC := RunPC.finished true }
  | RunPC.awaitJoin => { s with runPC := RunPC.finished true }
  | RunPC.finished _ => s

/-- Run the continuation of the task at the head of the ready queue.  The
reporter's only slice suspends in `asyncio.sleep(60)`, which never fires
within the scenario. -/
def dispatch (cfg : LoopCfg) (s : LoopState) : Tid → LoopState
  | Tid.runT => runResume cfg s
  | Tid.reporterT => s
  | Tid.commitT => commitResume s
  | Tid.monT => monResume cfg s
  | Tid.fetchT i => fetchResume cfg s i

/-- One step of the event loop: pop and run the next ready callback; when
the ready queue is empty, poll I/O, delivering the next batch of socket
completions. -/
def loopStep (cfg : LoopCfg) (s : LoopState) : LoopState :=
  match s.ready with
  | t :: rest => dispatch cfg { s with ready := rest } t
  | [] =>
    match s.net with
    | batch :: more => { s with net := more, ready := batch.map Tid.fetchT }
    | [] => s

/-- Has the main task returned?  `asyncio.run` then stops the loop and
cancels everything still pending, so the simulation halts there. -/
def isRunDone (s : LoopState) : Bool :=
  match s.runPC with
  | RunPC.finished _ => true
  | _ => false

/-- Drive the loop for at most `n` steps, stopping the moment `_run`
returns. -/
def loopRun (cfg : LoopCfg) : Nat → LoopState → LoopState
  | 0, s => s
  | n + 1, s => if isRunDone s then s else loopRun cfg n (loopStep cfg s)

/-- The concrete scenario: two seeds on host `h`; fetching the second seed
makes the handler admit one further URL on the same host; caps are the
class defaults `MAX_WORKER = 20`, `WORKER_DOMAIN = 5`. -/
def c1Cfg : LoopCfg :=
  { seeds := ["http://h/1".toList, "http://h/2".toList],
    handlerAdds := fun u =>
      if u = "http://h/2".toList then ["http://h/3".toList] else [],
    maxWorker := 20, workerDomain := 5 }

/-- The initial configuration of `asyncio.run(self._run(*urls))`: only the
main task is scheduled; both sockets of the two seed fetches complete in
the same poll, the first seed's first. -/
def c1Init : LoopState :=
  { ready := [Tid.runT], net := [[0, 1]],
    urlQueue := [], queueGetterWaiting := false, monSpawned := false,
    handled := [],
    semHost := 5, semGlobal := 20, semHostWaiters := [], semGlobalWaiters := [],
    runningQ := [], runningGetterWaiting := false, unfinished := 0,
    finishedEvent := false, runWaitingJoin := false, startDone := false,
    runPC := RunPC.booting, commitPC := CommitPC.booting, monPC := MonPC.booting,
    fetches := [], completedCount := 0, downloads := [] }

/-- The state at the instant `_run` returns in the scenario. -/
def c1Final : LoopState :=
  loopRun c1Cfg 40 c1Init

/-! ## Auxiliary specification-side definitions used by the theorems -/

/-- The wire form of one chunk of a chunked transfer encoding: the length
line, CRLF, the payload, CRLF. -/
def encodeChunk (line payload : List Char) : List Char :=
  line ++ "\r\n".toList ++ payload ++ "\r\n".toList

/-- The wire form of a sequence of chunks. -/
def encodeChunks : List (List Char × List Char) → List Char
  | [] => []
  | lp :: rest => encodeChunk lp.1 lp.2 ++ encodeChunks rest

/-- The dedup invariant of admission: no fingerprint is ever enqueued
twice, and every enqueued fingerprint is in the `_handled_urls` set. -/
def AdmissionInv (s : Admission) : Prop :=
  s.enqueued.Nodup ∧ ∀ f ∈ s.enqueued, f ∈ s.handled

/-! ## Helper lemmas -/

/-- Taking exactly the length of the left part of an append. -/
theorem take_len_append (l t : List Char) : (l ++ t).take l.length = l := by
  induction l with
  | nil => rfl
  | cons c r ih => simp [ih]

/-- Dropping exactly the length of the left part of an append. -/
theorem drop_len_append (l t : List Char) : (l ++ t).drop l.length = t := by
  induction l with
  | nil => rfl
  | cons c r ih => simp [ih]

/-- `splitFirstAt` at the first genuine occurrence of the separator. -/
theorem splitFirstAt_append (c : Char) (l r : List Char) (h : c ∉ l) :
    splitFirstAt c (l ++ c :: r) = some (l, r) := by
  induction l with
  | nil => simp [splitFirstAt]
  | cons x xs ih =>
    have hx : ¬x = c := fun hcontra => h (hcontra ▸ List.mem_cons_self x xs)
    have hxs : c ∉ xs := fun hc => h (List.mem_cons_of_mem x hc)
    simp [splitFirstAt, hx, ih hxs]

/-- `readline` on a stream starting with a LF-free line. -/
theorem readline_append (line rest : List Char) (h : '\n' ∉ line) :
    readline (line ++ '\n' :: rest) = (line ++ ['\n'], rest) := by
  unfold readline
  rw [splitFirstAt_append '\n' line rest h]

/-! ## Claim C2 — the request-target -/

/-- **C2, counterexample.**  The claim says the request line for a URL with
a non-empty query uses the request-target `path?query`.  For
`http://example.com/p?a=1` the fetcher writes `GET a=1? HTTP/1.1` — the
query followed by a `?`, with the path dropped — not `GET /p?a=1 HTTP/1.1`. -/
theorem c2_request_line_counterexample :
    (URL.parse "http://example.com/p?a=1".toList).map (requestLine "GET".toList) =
      Except.ok "GET a=1? HTTP/1.1\r\n".toList ∧
    "GET a=1? HTTP/1.1\r\n".toList ≠ "GET /p?a=1 HTTP/1.1\r\n".toList := by
  exact ⟨rfl, by decide⟩

/-- **C2, amended.**  For every URL, the request line uses the
request-target `query` followed by `'?'` when the URL's query is
non-empty (the path is dropped), and the path alone when the query is
empty. -/
theorem c2_request_target_amended (u : URL) :
    requestLine "GET".toList u =
      "GET ".toList ++
        (if u.query = [] then u.path else u.query ++ "?".toList) ++
        " HTTP/1.1\r\n".toList := by
  by_cases h : u.query = [] <;>
    simp [requestLine, requestTarget, h]

/-! ## Claim C3 — Content-Length handling -/

/-- **C3.**  With no `Content-Length` header the fetcher reads 0 bytes,
and with a numeric one it reads exactly that many bytes; but a present,
non-numeric `Content-Length` makes `int()` raise a `ValueError` that is
not caught anywhere in `_download_document`, escaping the fetch task —
contradicting the claim (and §7's no-abort policy). -/
theorem c3_content_length_bug :
    bodyFraming (initHeader "u".toList "HTTP/1.1 200 OK\r\n\r\n".toList)
      "abcde".toList = Except.ok [] ∧
    bodyFraming (initHeader "u".toList "HTTP/1.1 200 OK\r\nContent-Length: 3\r\n\r\n".toList)
      "abcde".toList = Except.ok "abc".toList ∧
    bodyFraming (initHeader "u".toList "HTTP/1.1 200 OK\r\nContent-Length: xyz\r\n\r\n".toList)
      "abcde".toList =
      Except.error "ValueError: invalid literal for int() with base 10".toList := by
  exact ⟨rfl, rfl, rfl⟩

/-! ## Claim C4 — gate release order -/

/-- **C4, counterexample.**  The claim says the gates are released global
gate first, then per-host gate; `_task_done` releases the per-host worker
gate first and the global work-position gate second. -/
theorem c4_release_order_counterexample :
    taskDoneReleases "http://example.com/".toList =
      Except.ok [GateRelease.perHost (some "example.com".toList), GateRelease.globalGate] ∧
    [GateRelease.perHost (some "example.com".toList), GateRelease.globalGate] ≠
      [GateRelease.globalGate, GateRelease.perHost (some "example.com".toList)] := by
  exact ⟨rfl, by decide⟩

/-- **C4, amended.**  On the happy path of every fetch whose URL parses,
the two gates are released per-host gate first, then global gate. -/
theorem c4_release_order_amended (url : List Char) (u : URL)
    (h : URL.parse url = Except.ok u) :
    taskDoneReleases url =
      Except.ok [GateRelease.perHost u.host, GateRelease.globalGate] := by
  unfold taskDoneReleases
  rw [h]
  rfl

/-- Witness for `c4_release_order_amended` at `http://example.com/`. -/
theorem c4_release_order_amended_witness :
    taskDoneReleases "http://example.com/".toList =
      Except.ok [GateRelease.perHost (some "example.com".toList), GateRelease.globalGate] :=
  c4_release_order_amended "http://example.com/".toList
    ⟨⟨"http".toList, "example.com".toList, "/".toList, [], []⟩⟩ rfl

/-! ## Claim C5 — the value returned by `start` -/

/-- **C5, counterexample.**  Even for a wholly successful crawl (where
`_run` returns `True`), `start` itself returns `None`, not a
success/failure boolean. -/
theorem c5_start_counterexample :
    startReturnValue (runReturnValue none) = none ∧
    (none : Option Bool) ≠ some true := by
  exact ⟨rfl, by decide⟩

/-- **C5, amended.**  `start` blocks until the crawl terminates and always
returns `None`; the success/failure boolean is computed by the inner
`_run` coroutine — `True` when no exception escapes its body, `False`
otherwise — and then discarded.  Moreover `_run` can return `False` for
reasons other than engine-init failure: admitting a malformed seed URL
raises inside `add_task` (e.g. `http://[::1`, whose `URL` constructor
raises `Invalid IPv6 URL`). -/
theorem c5_start_returns_none :
    (∀ b : Bool, startReturnValue b = none) ∧
    runReturnValue none = true ∧
    (∀ e : List Char, runReturnValue (some e) = false) ∧
    (addTask id [] Admission.init ["http://[::1".toList]).2 = true := by
  exact ⟨fun _ => rfl, rfl, fun _ => rfl, rfl⟩

/-! ## Claim C7 — decode failure delivery -/

/-- **C7.**  For every decompressor behaviour and every response whose
`Content-Encoding` decode (gzip or deflate) fails, the response delivered
to the handler has an empty body (its body, initialised to `b''`, is left
unchanged by `set_body(None)`), its status code is unchanged, the handler
is still invoked, and the failure was logged. -/
theorem c7_decode_failure (gz dfl : List Char → Option (List Char)) (r : Response)
    (body : List Char) (hbody : r.body = [])
    (hdec : (r.getD "Content-Encoding".toList [] = "gzip".toList ∧ gz body = none) ∨
            (r.getD "Content-Encoding".toList [] = "deflate".toList ∧ dfl body = none)) :
    (downloadTail gz dfl r body).delivered.body = [] ∧
    (downloadTail gz dfl r body).delivered.code = r.code ∧
    (downloadTail gz dfl r body).handlerInvoked = true ∧
    (downloadTail gz dfl r body).decodeErrorLogged = true := by
  rcases hdec with ⟨hce, hf⟩ | ⟨hce, hf⟩
  · simp only [downloadTail]
    rw [hce, if_pos rfl, hf]
    simp [Response.setBody, hbody]
  · simp only [downloadTail]
    rw [hce, if_neg (by decide), if_pos rfl, hf]
    simp [Response.setBody, hbody]

/-- Witness for `c7_decode_failure`: a gzip-encoded 500 response whose
decompression fails. -/
theorem c7_decode_failure_witness :
    (downloadTail (fun _ => none) (fun _ => none)
        (initHeader "u".toList
          "HTTP/1.1 500 Oops\r\nContent-Encoding: gzip\r\n\r\n".toList)
        "zzz".toList).delivered.body = [] ∧
    (downloadTail (fun _ => none) (fun _ => none)
        (initHeader "u".toList
          "HTTP/1.1 500 Oops\r\nContent-Encoding: gzip\r\n\r\n".toList)
        "zzz".toList).delivered.code =
      (initHeader "u".toList
          "HTTP/1.1 500 Oops\r\nContent-Encoding: gzip\r\n\r\n".toList).code ∧
    (downloadTail (fun _ => none) (fun _ => none)
        (initHeader "u".toList
          "HTTP/1.1 500 Oops\r\nContent-Encoding: gzip\r\n\r\n".toList)
        "zzz".toList).handlerInvoked = true ∧
    (downloadTail (fun _ => none) (fun _ => none)
        (initHeader "u".toList
          "HTTP/1.1 500 Oops\r\nContent-Encoding: gzip\r\n\r\n".toList)
        "zzz".toList).decodeErrorLogged = true :=
  c7_decode_failure (fun _ => none) (fun _ => none)
    (initHeader "u".toList "HTTP/1.1 500 Oops\r\nContent-Encoding: gzip\r\n\r\n".toList)
    "zzz".toList rfl (Or.inl ⟨rfl, rfl⟩)

/-! ## Claim C8 — chunked transfer decoding -/

/-- The loop of `_get_chunk_data` over a well-formed chunk stream: each
chunk whose length line is LF-free, differs from `0`, and parses in base
16 to the payload length contributes exactly its payload, and the loop
stops at the `0` line, ignoring any trailer. -/
theorem getChunkAux_encode (chunks : List (List Char × List Char))
    (trailer acc : List Char) (fuel : Nat)
    (hfuel : (encodeChunks chunks ++ "0\r\n".toList ++ trailer).length < fuel)
    (h : ∀ lp ∈ chunks, '\n' ∉ lp.1 ∧ lp.1 ≠ ['0'] ∧
      pyIntCore 16 lp.1 = some (lp.2.length : Int)) :
    getChunkAux fuel (encodeChunks chunks ++ "0\r\n".toList ++ trailer) acc =
      acc ++ (chunks.map Prod.snd).flatten := by
  induction chunks generalizing acc fuel with
  | nil =>
    match fuel, hfuel with
    | fuel + 1, _ =>
      show getChunkAux (fuel + 1) ('0' :: '\r' :: '\n' :: trailer) acc = acc ++ []
      have hline : readline ('0' :: '\r' :: '\n' :: trailer) = (['0', '\r', '\n'], trailer) :=
        readline_append ['0', '\r'] trailer (by decide)
      unfold getChunkAux
      rw [hline]
      simp
  | cons lp rest ih =>
    match fuel, hfuel with
    | fuel + 1, hfuel =>
      obtain ⟨hlf, h0, hparse⟩ := h lp (List.mem_cons_self lp rest)
      have hstream :
          encodeChunks (lp :: rest) ++ "0\r\n".toList ++ trailer =
            (lp.1 ++ ['\r']) ++ '\n' ::
              ((lp.2 ++ ['\r', '\n']) ++ (encodeChunks rest ++ "0\r\n".toList ++ trailer)) := by
        show encodeChunk lp.1 lp.2 ++ encodeChunks rest ++ "0\r\n".toList ++ trailer = _
        unfold encodeChunk
        show lp.1 ++ ['\r', '\n'] ++ lp.2 ++ ['\r', '\n'] ++ encodeChunks rest ++
          "0\r\n".toList ++ trailer = _
        simp
      have hlf2 : '\n' ∉ lp.1 ++ ['\r'] := by
        intro hmem
        rcases List.mem_append.mp hmem with hm | hm
        · exact hlf hm
        · simp at hm
      have hline := readline_append (lp.1 ++ ['\r'])
        ((lp.2 ++ ['\r', '\n']) ++ (encodeChunks rest ++ "0\r\n".toList ++ trailer)) hlf2
      have hne0 : ¬((lp.1 ++ ['\r']) ++ ['\n'] = ['0', '\r', '\n']) := by
        intro heq
        apply h0
        have : lp.1 ++ ['\r', '\n'] = ['0'] ++ ['\r', '\n'] := by
          simpa using heq
        exact List.append_cancel_right this
      have hdrop : dropLast2 ((lp.1 ++ ['\r']) ++ ['\n']) = lp.1 := by
        unfold dropLast2
        have : ((lp.1 ++ ['\r']) ++ ['\n']).length = lp.1.length + 2 := by simp
        rw [this]
        have h2 : lp.1.length + 2 - 2 = lp.1.length := by omega
        rw [h2]
        have : (lp.1 ++ ['\r']) ++ ['\n'] = lp.1 ++ ['\r', '\n'] := by simp
        rw [this]
        exact take_len_append lp.1 ['\r', '\n']
      have hread : readexactly
          ((lp.2 ++ ['\r', '\n']) ++ (encodeChunks rest ++ "0\r\n".toList ++ trailer))
          ((lp.2.length : Int) + 2) =
          some (lp.2 ++ ['\r', '\n'], encodeChunks rest ++ "0\r\n".toList ++ trailer) := by
        unfold readexactly
        have hn : ((lp.2.length : Int) + 2).toNat = lp.2.length + 2 := by omega
        rw [if_neg (by omega), hn]
        have hlen : (lp.2 ++ ['\r', '\n']).length = lp.2.length + 2 := by simp
        rw [if_neg (by simp)]
        rw [← hlen, take_len_append, drop_len_append]
      have hdropChunk : dropLast2 (lp.2 ++ ['\r', '\n']) = lp.2 := by
        unfold dropLast2
        have : (lp.2 ++ ['\r', '\n']).length = lp.2.length + 2 := by simp
        rw [this]
        have h2 : lp.2.length + 2 - 2 = lp.2.length := by omega
        rw [h2]
        exact take_len_append lp.2 ['\r', '\n']
      have hfuel2 : (encodeChunks rest ++ "0\r\n".toList ++ trailer).length < fuel := by
        rw [hstream] at hfuel
        simp only [List.length_append, List.length_cons] at hfuel ⊢
        omega
      have hrest : ∀ lp2 ∈ rest, '\n' ∉ lp2.1 ∧ lp2.1 ≠ ['0'] ∧
          pyIntCore 16 lp2.1 = some (lp2.2.length : Int) :=
        fun lp2 hm => h lp2 (List.mem_cons_of_mem lp hm)
      rw [hstream]
      unfold getChunkAux
      rw [hline]
      rw [if_neg hne0, hdrop, hparse]
      simp only [hread, hdropChunk]
      rw [ih (acc ++ lp.2) fuel hfuel2 hrest]
      simp

/-- **C8.**  Reading a chunked body repeatedly takes a CRLF-terminated hex
length line, reads exactly that many payload bytes plus the trailing CRLF,
appends the payload, and stops at the `0` length line (trailers ignored);
in particular `"3\r\nabc\r\n5\r\nhello\r\n0\r\n"` assembles to
`"abchello"`. -/
theorem c8_chunked_assembly (chunks : List (List Char × List Char)) (trailer : List Char)
    (h : ∀ lp ∈ chunks, '\n' ∉ lp.1 ∧ lp.1 ≠ ['0'] ∧
      pyIntCore 16 lp.1 = some (lp.2.length : Int)) :
    getChunkData (encodeChunks chunks ++ "0\r\n".toList ++ trailer) =
      (chunks.map Prod.snd).flatten ∧
    getChunkData "3\r\nabc\r\n5\r\nhello\r\n0\r\n".toList = "abchello".toList := by
  constructor
  · unfold getChunkData
    rw [getChunkAux_encode chunks trailer [] _ (Nat.lt_succ_self _) h]
    rfl
  · decide

/-- Witness for `c8_chunked_assembly` at the two-chunk stream of R5. -/
theorem c8_chunked_assembly_witness :
    getChunkData (encodeChunks [("3".toList, "abc".toList), ("5".toList, "hello".toList)] ++
        "0\r\n".toList ++ []) =
      ([("3".toList, "abc".toList), ("5".toList, "hello".toList)].map Prod.snd).flatten ∧
    getChunkData "3\r\nabc\r\n5\r\nhello\r\n0\r\n".toList = "abchello".toList :=
  c8_chunked_assembly [("3".toList, "abc".toList), ("5".toList, "hello".toList)] []
    (by decide)

/-! ## Claim C9 — admission dedup -/

/-- One `add_task` iteration preserves the dedup invariant: a fingerprint
already in `_handled_urls` is dropped before reaching the queues, and a
new one is recorded in `_handled_urls` before (and whether or not) its URL
is enqueued. -/
theorem addTaskOne_inv (md5 : List Char → List Char) (allowed : List (List Char))
    (s : Admission) (url : List Char) (h : AdmissionInv s) :
    AdmissionInv (addTaskOne md5 allowed s url).1 := by
  obtain ⟨hnd, hsub⟩ := h
  unfold addTaskOne
  cases hcd : checkDomain allowed url with
  | error e => exact ⟨hnd, hsub⟩
  | ok b =>
    cases b with
    | false => exact ⟨hnd, hsub⟩
    | true =>
      by_cases hmem : md5 url ∈ s.handled
      · rw [if_pos hmem]
        exact ⟨hnd, hsub⟩
      · rw [if_neg hmem]
        have hnotenq : md5 url ∉ s.enqueued := fun hc => hmem (hsub _ hc)
        have hnd2 : (s.enqueued ++ [md5 url]).Nodup := by
          rw [List.nodup_append]
          exact ⟨hnd, List.nodup_singleton _, by
            intro a ha hb
            simp at hb
            exact hnotenq (hb ▸ ha)⟩
        have hsub2 : ∀ f ∈ s.enqueued ++ [md5 url], f ∈ md5 url :: s.handled := by
          intro f hf
          rcases List.mem_append.mp hf with hf | hf
          · exact List.mem_cons_of_mem _ (hsub f hf)
          · simp at hf
            simp [hf]
        cases hup : URL.parse url with
        | error e => exact ⟨hnd, fun f hf => List.mem_cons_of_mem _ (hsub f hf)⟩
        | ok u =>
          by_cases hq : (queueFor s.queues u.host).isSome = true
          · simp only [hq]
            exact ⟨hnd2, hsub2⟩
          · simp only [Bool.not_eq_true] at hq
            simp only [hq]
            exact ⟨hnd2, hsub2⟩

/-- When the fingerprint is already in `_handled_urls`, the iteration
leaves the whole engine state untouched. -/
theorem addTaskOne_drop (md5 : List Char → List Char) (allowed : List (List Char))
    (s : Admission) (url : List Char) (hmem : md5 url ∈ s.handled) :
    (addTaskOne md5 allowed s url).1 = s := by
  unfold addTaskOne
  cases hcd : checkDomain allowed url with
  | error e => rfl
  | ok b =>
    cases b with
    | false => rfl
    | true => rw [if_pos hmem]

/-- `add_task` over a URL list preserves the dedup invariant (including
when an exception aborts the loop midway). -/
theorem addTask_inv (md5 : List Char → List Char) (allowed : List (List Char)) :
    ∀ (urls : List (List Char)) (s : Admission), AdmissionInv s →
      AdmissionInv (addTask md5 allowed s urls).1 := by
  intro urls
  induction urls with
  | nil => intro s h; exact h
  | cons u rest ih =>
    intro s h
    unfold addTask
    have h1 := addTaskOne_inv md5 allowed s u h
    cases hstep : addTaskOne md5 allowed s u with
    | mk s1 errored =>
      rw [hstep] at h1
      cases errored with
      | true => exact h1
      | false => exact ih s1 h1

/-- **C9.**  For every fingerprint, at most one fetch task is ever spawned
during a run: across any sequence of admissions from a state satisfying
the invariant, the ghost log of enqueued fingerprints stays duplicate-free
(fetches are spawned one per enqueued entry), every enqueued fingerprint
is in `_handled_urls`, and a URL whose fingerprint is already in
`_handled_urls` leaves the state unchanged — it is dropped. -/
theorem c9_fingerprint_once (md5 : List Char → List Char) (allowed : List (List Char))
    (s : Admission) (urls : List (List Char)) (hinv : AdmissionInv s) :
    (addTask md5 allowed s urls).1.enqueued.Nodup ∧
    (∀ f ∈ (addTask md5 allowed s urls).1.enqueued,
      f ∈ (addTask md5 allowed s urls).1.handled) ∧
    (∀ url, md5 url ∈ s.handled → (addTaskOne md5 allowed s url).1 = s) := by
  have h := addTask_inv md5 allowed urls s hinv
  exact ⟨h.1, h.2, fun url hmem => addTaskOne_drop md5 allowed s url hmem⟩

/-- Witness for `c9_fingerprint_once`: two identical seeds from the empty
state are admitted once. -/
theorem c9_fingerprint_once_witness :
    (addTask id [] Admission.init
      ["http://a/".toList, "http://a/".toList]).1.enqueued.Nodup ∧
    (∀ f ∈ (addTask id [] Admission.init
      ["http://a/".toList, "http://a/".toList]).1.enqueued,
      f ∈ (addTask id [] Admission.init
        ["http://a/".toList, "http://a/".toList]).1.handled) ∧
    (∀ url, id url ∈ Admission.init.handled →
      (addTaskOne id [] Admission.init url).1 = Admission.init) :=
  c9_fingerprint_once id [] Admission.init
    ["http://a/".toList, "http://a/".toList]
    ⟨List.nodup_nil, by intro f hf; simp [Admission.init] at hf⟩

/-! ## Claim C10 — charset detection needs a trailing delimiter -/

/-- Soundness of the charset scanner: a match only ever arises from an
occurrence of `charset=` that has a `[;\s]` delimiter somewhere after the
capture start. -/
theorem findCharset_some (l cap : List Char) (h : findCharset l = some cap) :
    ∃ i, i < l.length ∧ "charset=".toList.isPrefixOf (l.drop i) = true ∧
      ∃ c ∈ l.drop (i + 8), charsetDelim c = true := by
  induction l with
  | nil => simp [findCharset] at h
  | cons x rest ih =>
    unfold findCharset at h
    by_cases hp : "charset=".toList.isPrefixOf (x :: rest) = true
    · rw [if_pos hp] at h
      cases hcap : charsetCapture ((x :: rest).drop 8) with
      | some c2 =>
        refine ⟨0, by simp, by simpa using hp, ?_⟩
        unfold charsetCapture at hcap
        by_cases hany : ((x :: rest).drop 8).any charsetDelim = true
        · simpa using List.any_eq_true.mp hany
        · rw [if_neg hany] at hcap
          exact absurd hcap (by simp)
      | none =>
        rw [hcap] at h
        obtain ⟨i, hi, hpre, c, hc, hd⟩ := ih h
        exact ⟨i + 1, by simpa using hi, hpre, c, hc, hd⟩
    · rw [if_neg hp] at h
      obtain ⟨i, hi, hpre, c, hc, hd⟩ := ih h
      exact ⟨i + 1, by simpa using hi, hpre, c, hc, hd⟩

/-- **C10.**  For every `Content-Type` value that contains a `charset=`
parameter but no `;` or whitespace character after any occurrence of it
(the charset being the final, undelimited component), the charset regex
`charset=(.*?)[;\s]` finds no match, `Response.encoding` returns `None`,
and the text view falls back to UTF-8. -/
theorem c10_charset_final_component (r : Response) (ct : List Char)
    (hget : r.get "Content-Type".toList = some ct)
    (_hhas : ∃ i, i < ct.length ∧ "charset=".toList.isPrefixOf (ct.drop i) = true)
    (hnone : ∀ i, i < ct.length → "charset=".toList.isPrefixOf (ct.drop i) = true →
      ∀ c ∈ ct.drop (i + 8), charsetDelim c = false) :
    r.encoding = none ∧ r.textEncoding = "UTF-8".toList := by
  have henc : r.encoding = none := by
    unfold Response.encoding
    rw [hget]
    show (if ct = [] then none
      else match findCharset ct with
           | some cap => some cap
           | none => none) = none
    by_cases hct : ct = []
    · rw [if_pos hct]
    · rw [if_neg hct]
      cases hfc : findCharset ct with
      | none => rfl
      | some cap =>
        obtain ⟨i, hi, hpre, c, hcmem, hcdelim⟩ := findCharset_some ct cap hfc
        have := hnone i hi hpre c hcmem
        rw [this] at hcdelim
        exact absurd hcdelim (by simp)
  refine ⟨henc, ?_⟩
  unfold Response.textEncoding
  rw [henc]

/-- Witness for `c10_charset_final_component`: a response whose
`Content-Type` is `text/html; charset=utf-8` with nothing after the
charset name. -/
theorem c10_charset_final_component_witness :
    (initHeader "u".toList
      "HTTP/1.1 200 OK\r\nContent-Type: text/html; charset=utf-8\r\n\r\n".toList).encoding =
      none ∧
    (initHeader "u".toList
      "HTTP/1.1 200 OK\r\nContent-Type: text/html; charset=utf-8\r\n\r\n".toList).textEncoding =
      "UTF-8".toList :=
  c10_charset_final_component
    (initHeader "u".toList
      "HTTP/1.1 200 OK\r\nContent-Type: text/html; charset=utf-8\r\n\r\n".toList)
    "text/html; charset=utf-8".toList
    (by decide)
    ⟨11, by decide, by decide⟩
    (by decide)

/-! ## Claim C6 — URL parsing totality -/

/-- Error classification for the embedded `urlsplit`: the only exception
the split itself can raise is `Invalid IPv6 URL`. -/
theorem pyUrlsplit_error (raw e : List Char) (h : pyUrlsplit raw = Except.error e) :
    e = "Invalid IPv6 URL".toList := by
  simp only [pyUrlsplit] at h
  split at h
  · rename_i e2 heq
    split at heq
    · split at heq
      · simp_all
      · simp_all
    · simp_all
  · simp_all

/-- **C6, counterexample.**  URL parsing is not total: constructing
`URL("http://[::1")` raises `ValueError: Invalid IPv6 URL` out of
`urlsplit`, and reading `.port` of the successfully constructed
`URL("http://a:b/")` raises
`ValueError: Port could not be cast to integer value`. -/
theorem c6_url_totality_counterexample :
    pyUrlsplit "http://[::1".toList = Except.error "Invalid IPv6 URL".toList ∧
    (URL.parse "http://a:b/".toList).bind URL.port =
      Except.error "Port could not be cast to integer value".toList := by
  exact ⟨rfl, rfl⟩

/-- **C6, amended.**  For every ASCII input, constructing a URL either
succeeds or raises exactly the `Invalid IPv6 URL` error (mismatched
square brackets in the authority); on a constructed URL the `scheme`,
`host`, `path` and `query` accessors are total functions yielding
best-effort values (an empty host is legal and reads as `None`), and the
`port` accessor can only raise when the authority carries an explicit
port component (which it does when that component is non-numeric or out
of range). -/
theorem c6_url_parse_totality (raw : List Char)
    (_hascii : ∀ c ∈ raw, c.toNat < 128) :
    ((∃ r, pyUrlsplit raw = Except.ok r) ∨
      pyUrlsplit raw = Except.error "Invalid IPv6 URL".toList) ∧
    (∀ u : URL, URL.parse raw = Except.ok u → ∀ e, u.port = Except.error e →
      u.split.hostinfoOf.2 ≠ none) ∧
    URL.parse "/x".toList = Except.ok ⟨⟨[], [], "/x".toList, [], []⟩⟩ ∧
    (URL.mk ⟨[], [], "/x".toList, [], []⟩).host = none := by
  refine ⟨?_, ?_, rfl, rfl⟩
  · cases hv : pyUrlsplit raw with
    | ok r => exact Or.inl ⟨r, rfl⟩
    | error e =>
      right
      rw [pyUrlsplit_error raw e hv]
  · intro u _hu e he hnone
    have hp : u.split.portOf = Except.ok none := by
      unfold SplitResult.portOf
      rw [hnone]
    unfold URL.port at he
    rw [hp] at he
    simp at he

/-- Witness for `c6_url_parse_totality` at `http://example.com:81/a?b`. -/
theorem c6_url_parse_totality_witness :
    ((∃ r, pyUrlsplit "http://example.com:81/a?b".toList = Except.ok r) ∨
      pyUrlsplit "http://example.com:81/a?b".toList =
        Except.error "Invalid IPv6 URL".toList) ∧
    (∀ u : URL, URL.parse "http://example.com:81/a?b".toList = Except.ok u →
      ∀ e, u.port = Except.error e → u.split.hostinfoOf.2 ≠ none) ∧
    URL.parse "/x".toList = Except.ok ⟨⟨[], [], "/x".toList, [], []⟩⟩ ∧
    (URL.mk ⟨[], [], "/x".toList, [], []⟩).host = none :=
  c6_url_parse_totality "http://example.com:81/a?b".toList (by decide)

/-! ## Claim C1 — the termination detector -/

/-- **C1.**  The claim — when `start` reports success, every per-host
queue is empty and no fetch is in flight — fails on the code: `_run`
checks only `_start` and `_running_task.join()` and never re-checks the
per-host queues.  In the concrete schedule `c1Init`/`c1Cfg` (two same-host
seeds whose sockets complete in one poll, the second seed's handler
admitting one more same-host URL), `_run` returns `True` while the fetch
task spawned for `http://h/3` is still in flight (`unfinished = 1`, the
task scheduled but never executed — `asyncio.run` then cancels it), so
that admitted URL is never downloaded and the transitive closure is not
exhausted. -/
theorem c1_termination_race :
    c1Final.runPC = RunPC.finished true ∧
    c1Final.unfinished = 1 ∧
    c1Final.fetches.get? 2 = some ("http://h/3".toList, FetchPC.booting) ∧
    c1Final.downloads = ["http://h/1".toList, "http://h/2".toList] ∧
    "http://h/3".toList ∈ c1Final.handled := by
  refine ⟨rfl, rfl, rfl, rfl, ?_⟩
  decide

end Microspider
